import Mathlib

/-!
Verification development for the LLM code-debloating pipeline.

Python strings are modelled as lists of characters (`PyStr`); Python's
`str.split(sep)`, `str.strip()` and related operations are embedded as
executable functions on `List Char`.  Fallible Python code is modelled with
`Except PyError`; external transports (LLM APIs) and the file system are
oracles supplied through environment records.  All definitions are
translated from the repository sources (`llm_handler.py`, `main.py`,
`code_processor.py`, `metrics_recorder.py`, `batch_processor.py`,
`prompts.py`); the two definitions whose doc comments say so are instead
formalisations of the specification's wording, used to compare spec and
code.
-/

namespace Debloat

/-- Python strings, modelled as lists of characters. -/
abbrev PyStr := List Char

/-- The backtick character (code point 96) used by Markdown code fences. -/
def backtick : Char := Char.ofNat 96

/-- The generic code-fence marker, three backticks. -/
def genericFence : PyStr := [backtick, backtick, backtick]

/-- The language-tagged opening marker the extractor splits on first. -/
def pythonFence : PyStr := genericFence ++ "python".toList

/-- Python whitespace characters, as removed by `str.strip()`. -/
def isPySpace (c : Char) : Bool :=
  c == ' ' || c == '\t' || c == '\n' || c == '\r' || c == Char.ofNat 11 || c == Char.ofNat 12

/-- Python `str.strip()`: remove leading and trailing whitespace. -/
def pyStrip (s : PyStr) : PyStr :=
  ((s.dropWhile isPySpace).reverse.dropWhile isPySpace).reverse

/-- If `pat` is an initial segment of `s`, return the remainder of `s`. -/
def stripFront : PyStr → PyStr → Option PyStr
  | [], s => some s
  | _ :: _, [] => none
  | a :: ps, b :: cs => if a = b then stripFront ps cs else none

/-- First segment of `s` up to the leftmost occurrence of the separator
`c0 :: cr`, together with the remainder after that occurrence (or `none`
when the separator does not occur). -/
def splitHead (c0 : Char) (cr : PyStr) : PyStr → PyStr × Option PyStr
  | [] => ([], none)
  | c :: cs =>
    match stripFront (c0 :: cr) (c :: cs) with
    | some rest => ([], some rest)
    | none =>
      let p := splitHead c0 cr cs
      (c :: p.1, p.2)

/-- Index of the leftmost occurrence of `pat` in `s`, if any. -/
def firstOccurIdx (pat : PyStr) : PyStr → Option Nat
  | [] =>
    match stripFront pat [] with
    | some _ => some 0
    | none => none
  | c :: cs =>
    match stripFront pat (c :: cs) with
    | some _ => some 0
    | none => (firstOccurIdx pat cs).map (· + 1)

/-- Fuelled worker for Python `str.split(sep)`: separator occurrences are
consumed left to right, non-overlapping.  The fuel only bounds recursion
depth; `pySplit` supplies enough for the answer to be exact. -/
def pySplitF (sep : PyStr) : Nat → PyStr → List PyStr
  | 0, s => [s]
  | fuel + 1, s =>
    match sep with
    | [] => [s]
    | c0 :: cr =>
      match splitHead c0 cr s with
      | (seg, none) => [seg]
      | (seg, some rest) => seg :: pySplitF sep fuel rest

/-- Python `str.split(sep)` for a non-empty separator.  (Python raises on an
empty separator; this embedding is never applied to one.) -/
def pySplit (sep s : PyStr) : List PyStr :=
  pySplitF sep (s.length + 1) s

/-- Elements at odd indices of a list: Python's
`[block for i, block in enumerate(blocks) if i % 2 == 1]`. -/
def oddIdx : List PyStr → List PyStr
  | [] => []
  | [_] => []
  | _ :: b :: rest => b :: oddIdx rest

/-- Python `max(candidates, key=len)`: the first candidate of maximal
length (a later candidate replaces the current best only when strictly
longer). -/
def pyMaxByLen (b : PyStr) (bs : List PyStr) : PyStr :=
  bs.foldl (fun best x => if best.length < x.length then x else best) b

/-- `LLMHandler._extract_code_from_response`: split on the tagged marker
first and return the first tagged block stripped; otherwise pick the
longest odd-indexed segment of the generic-fence split; otherwise return
the whole response text (the source logs a warning in that branch). -/
def extract_code_from_response (responseText : PyStr) : PyStr :=
  let codeBlocks := pySplit pythonFence responseText
  if 1 < codeBlocks.length then
    pyStrip ((pySplit genericFence (codeBlocks.getD 1 [])).headD [])
  else
    let blocks := pySplit genericFence responseText
    if 1 < blocks.length then
      match oddIdx blocks with
      | [] => responseText
      | b :: bs => pyStrip (pyMaxByLen b bs)
    else responseText

/-- `CodeProcessor.count_lines_of_code`: `len(code.split('\n'))`. -/
def count_lines_of_code (code : PyStr) : Nat :=
  (pySplit ['\n'] code).length

/-- The LOC-reduction expression of `main.process_file` (line 53):
`((original_loc - optimized_loc) / original_loc) * 100 if original_loc > 0
else 0`, with exact rational arithmetic standing in for Python floats. -/
def loc_reduction_percentage (locBefore locAfter : Nat) : ℚ :=
  if 0 < locBefore then (((locBefore : ℚ) - (locAfter : ℚ)) / (locBefore : ℚ)) * 100 else 0

/-- Python exception values the embedding distinguishes. -/
inductive PyError where
  | valueError (msg : PyStr)
  | typeError
  | attributeError
  | keyError
  | ioError
  | apiError
deriving DecidableEq

deriving instance DecidableEq for Except

/-- Observable outcome of one provider call: the result of the `try` body,
the total simulated time slept, and the number of transport (network)
calls consumed. -/
structure CallOutcome where
  result : Except PyError PyStr
  slept : Nat
  calls : Nat
deriving DecidableEq

/-- Oracle environment for `LLMHandler`: which API keys are present, and
the outcome of each provider transport.  The Claude transport is indexed
by the attempt number so a retry scenario can be described; transports
receive the full prompt. -/
structure LLMEnv where
  hasClaudeKey : Bool
  hasOpenaiKey : Bool
  hasGoogleKey : Bool
  hasDeepseekKey : Bool
  claudeTransport : PyStr → Nat → Except PyError PyStr
  geminiTransport : PyStr → Except PyError PyStr
  openaiTransport : PyStr → Except PyError PyStr
  deepseekTransport : PyStr → Except PyError PyStr

/-- `max_retries = 3` in `LLMHandler._call_claude`. -/
def maxRetries : Nat := 3

/-- `retry_delay = 2` in `LLMHandler._call_claude`. -/
def retryDelay : Nat := 2

/-- The retry loop of `_call_claude`: `for attempt in range(max_retries)`.
`remaining` counts loop iterations left (`maxRetries - attempt`); the base
case `remaining = 0` is unreachable because `maxRetries = 3 > 0`.  On
failure with iterations left the loop sleeps `retry_delay * 2 ** attempt`
and retries; on the last iteration the exception propagates. -/
def callClaudeGo (t : Nat → Except PyError PyStr) : Nat → Nat → CallOutcome
  | _, 0 => ⟨.error .apiError, 0, 0⟩
  | attempt, remaining + 1 =>
    match t attempt with
    | .ok text => ⟨.ok (extract_code_from_response text), 0, 1⟩
    | .error e =>
      if remaining = 0 then ⟨.error e, 0, 1⟩
      else
        let o := callClaudeGo t (attempt + 1) remaining
        ⟨o.result, retryDelay * 2 ^ attempt + o.slept, o.calls + 1⟩

/-- `LLMHandler._call_claude`: missing-key check, then the retry loop. -/
def call_claude (env : LLMEnv) (prompt : PyStr) : CallOutcome :=
  if env.hasClaudeKey then callClaudeGo (env.claudeTransport prompt) 0 maxRetries
  else ⟨.error (.valueError "Claude API key not found in environment variables".toList), 0, 0⟩

/-- Shared shape of `_call_gemini`, `_call_openai`, `_call_deepseek`:
missing-key check, a single transport call, extraction on success, and
re-raising any transport failure. -/
def callSimple (hasKey : Bool) (missingMsg : PyStr) (t : Except PyError PyStr) : CallOutcome :=
  if hasKey then
    match t with
    | .ok text => ⟨.ok (extract_code_from_response text), 0, 1⟩
    | .error e => ⟨.error e, 0, 1⟩
  else ⟨.error (.valueError missingMsg), 0, 0⟩

/-- `LLMHandler._call_gemini`. -/
def call_gemini (env : LLMEnv) (prompt : PyStr) : CallOutcome :=
  callSimple env.hasGoogleKey "Google API key not found in environment variables".toList
    (env.geminiTransport prompt)

/-- `LLMHandler._call_openai`. -/
def call_openai (env : LLMEnv) (prompt : PyStr) : CallOutcome :=
  callSimple env.hasOpenaiKey "OpenAI API key not found in environment variables".toList
    (env.openaiTransport prompt)

/-- `LLMHandler._call_deepseek`. -/
def call_deepseek (env : LLMEnv) (prompt : PyStr) : CallOutcome :=
  callSimple env.hasDeepseekKey "DeepSeek API key not found in environment variables".toList
    (env.deepseekTransport prompt)

/-- Model name dispatched to `_call_claude` in `optimize_code`. -/
def claudeName : PyStr := "claude-3-7-sonnet".toList

/-- Model name dispatched to `_call_gemini`. -/
def geminiName : PyStr := "gemini-2-0-flash".toList

/-- Model name dispatched to `_call_openai`. -/
def openaiName : PyStr := "gpt-4o".toList

/-- Model name dispatched to `_call_deepseek`. -/
def deepseekName : PyStr := "deepseek-r1".toList

/-- The fixed set of model names `optimize_code` dispatches on. -/
def supportedModels : List PyStr := [claudeName, geminiName, openaiName, deepseekName]

/-- The full prompt built by `optimize_code`: the instruction, a blank
line, then the code wrapped in a language-tagged fenced block. -/
def buildFullPrompt (prompt code : PyStr) : PyStr :=
  prompt ++ "\n\n```python\n".toList ++ code ++ "\n```".toList

/-- The `try` body of `LLMHandler.optimize_code`: dispatch on the model
name; an unknown name raises `ValueError` before any transport call. -/
def optimizeCodeTry (env : LLMEnv) (model code prompt : PyStr) : CallOutcome :=
  let fullPrompt := buildFullPrompt prompt code
  if model = claudeName then call_claude env fullPrompt
  else if model = geminiName then call_gemini env fullPrompt
  else if model = openaiName then call_openai env fullPrompt
  else if model = deepseekName then call_deepseek env fullPrompt
  else ⟨.error (.valueError ("Unsupported model: ".toList ++ model)), 0, 0⟩

/-- `LLMHandler.optimize_code`: the blanket `except Exception` returns the
original code whenever the `try` body raises. -/
def optimize_code (env : LLMEnv) (model code prompt : PyStr) : PyStr :=
  match (optimizeCodeTry env model code prompt).result with
  | .ok s => s
  | .error _ => code

/-- What a caller of the dispatcher can observe: a normal return value, or
a propagated exception. -/
inductive DispatchObservable where
  | normal (code : PyStr)
  | raised (e : PyError)
deriving DecidableEq

/-- Whether an observable outcome is a propagated exception. -/
def isRejection : DispatchObservable → Bool
  | .raised _ => true
  | .normal _ => false

/-- The observable behaviour of `optimize_code` at its boundary: because
its `except Exception` clause returns the original code, it always
returns normally. -/
def optimizeCodeObservable (env : LLMEnv) (model code prompt : PyStr) : DispatchObservable :=
  match (optimizeCodeTry env model code prompt).result with
  | .ok s => .normal s
  | .error _ => .normal code

/-- Every transport call of every provider fails (with arbitrary errors). -/
def transportsAllFail (env : LLMEnv) : Prop :=
  (∀ p n, ∃ e, env.claudeTransport p n = .error e)
  ∧ (∀ p, ∃ e, env.geminiTransport p = .error e)
  ∧ (∀ p, ∃ e, env.openaiTransport p = .error e)
  ∧ (∀ p, ∃ e, env.deepseekTransport p = .error e)

/-- `PROMPTS["1"]` from `prompts.py`. -/
def prompt1 : PyStr := "
Goal*
You are an experienced software engineer. Please debloat the code in this file while maintaining its functional correctness. Simplify logic, remove redundancies, and optimize for readability and maintainability without introducing new bugs.

IMPORTANT
1. All rewritten code must remain within the file it originated from.
2. No new files or services may be introduced as part of the solution.
3. Adding helper methods within the file is allowed but must not break functional correctness.
4. Do not modify OR remove comments, as they do not count as code.  Imports also do not count as code.

Context
Software bloat refers to unnecessary or inefficient CODE that increases a program size or reduces its performance without contributing meaningful functionality.
".toList

/-- `PROMPTS["2"]` from `prompts.py`. -/
def prompt2 : PyStr := "
Debloat this file while maintaining functional correctness
".toList

/-- The `PROMPTS` dictionary, keyed by "1" and "2". -/
def promptsDict (k : PyStr) : Option PyStr :=
  if k = "1".toList then some prompt1
  else if k = "2".toList then some prompt2
  else none

/-- The dynamically typed value bound to `process_file`'s `args`
parameter: the argparse namespace in single-file mode, or — because
`batch_processor` passes its export path as the fourth positional
argument — a path-or-None in batch mode.  Attribute access on the latter
raises `AttributeError`. -/
inductive ArgsObject where
  | namespaceArgs (customPrompt : Option PyStr) (promptChoice : Option PyStr)
  | exportArg (path : Option PyStr)
deriving DecidableEq

/-- Python `args.custom_prompt`. -/
def getattrCustomPrompt : ArgsObject → Except PyError (Option PyStr)
  | .namespaceArgs cp _ => .ok cp
  | .exportArg _ => .error .attributeError

/-- Python `args.prompt`. -/
def getattrPromptChoice : ArgsObject → Except PyError (Option PyStr)
  | .namespaceArgs _ pc => .ok pc
  | .exportArg _ => .error .attributeError

/-- Python truthiness of an optional string (None and "" are falsy). -/
def optTruthy : Option PyStr → Bool
  | some s => !s.isEmpty
  | none => false

/-- Python `x or default` for an optional string. -/
def pyOr (o : Option PyStr) (d : PyStr) : PyStr :=
  match o with
  | some s => if s.isEmpty then d else s
  | none => d

/-- `prompt_text = prompt if args.custom_prompt else PROMPTS[args.prompt if
args.prompt else '1']` from `process_file` Step 4: attribute access may
raise, and a missing dictionary key raises `KeyError`. -/
def promptTextStep (args : ArgsObject) (prompt : Option PyStr) : Except PyError (Option PyStr) :=
  match getattrCustomPrompt args with
  | .error e => .error e
  | .ok cp =>
    if optTruthy cp then .ok prompt
    else
      match getattrPromptChoice args with
      | .error e => .error e
      | .ok pc =>
        let key := if optTruthy pc then pc.getD [] else "1".toList
        match promptsDict key with
        | some t => .ok (some t)
        | none => .error .keyError

/-- One row of the metrics table, as built inside
`MetricsRecorder.record_metrics`. -/
structure MetricsRow where
  timestamp : PyStr
  fileName : PyStr
  llmModel : PyStr
  locBefore : Nat
  locAfter : Nat
  locReductionPct : ℚ
deriving DecidableEq

/-- The parameter names `MetricsRecorder.record_metrics` accepts (from its
signature in `metrics_recorder.py`). -/
def recordMetricsParamNames : List PyStr :=
  ["file_name".toList, "llm_model".toList, "loc_before".toList, "loc_after".toList,
   "loc_reduction_percentage".toList]

/-- The keyword-argument names `process_file` passes to `record_metrics`
(from the call site in `main.py`). -/
def recordCallKwargNames : List PyStr :=
  ["file_name".toList, "llm_model".toList, "loc_before".toList, "loc_after".toList,
   "loc_reduction_percentage".toList, "prompt_text".toList]

/-- Python call semantics: a keyword argument outside the callee's
parameter list raises `TypeError` before the body runs. -/
def pyKwargsAccepted (params kwargs : List PyStr) : Bool :=
  kwargs.all (fun k => params.contains k)

/-- Oracle environment for the single-file pipeline: the LLM environment,
file reads by path, the `MetricsRecorder` constructor outcome, writes of
optimized code by path, the Excel write inside `record_metrics`, and the
current timestamp. -/
structure PipelineEnv where
  llm : LLMEnv
  readFile : PyStr → Except PyError PyStr
  metricsInit : Except PyError Unit
  saveResult : PyStr → PyStr → Except PyError Unit
  metricsWrite : Except PyError Unit
  now : PyStr

/-- Python `round(x, 2)`, modelled with rational rounding. -/
def roundTo2 (q : ℚ) : ℚ := (round (q * 100) : ℤ) / 100

/-- Python `os.path.basename` (POSIX separators). -/
def pyBasename (p : PyStr) : PyStr :=
  (pySplit ['/'] p).getLastD p

/-- Python `os.path.join` for the common relative-second-argument case. -/
def pyJoin (d f : PyStr) : PyStr := d ++ '/' :: f

/-- The call `metrics_recorder.record_metrics(..., prompt_text=prompt_text)`
from `process_file`: Python checks the keyword arguments against
`record_metrics`'s signature before running its body, which appends one
row and re-persists the table. -/
def record_metrics_call (env : PipelineEnv) (fileName llmModel : PyStr)
    (locBefore locAfter : Nat) (pct : ℚ) : Except PyError MetricsRow :=
  if pyKwargsAccepted recordMetricsParamNames recordCallKwargNames then
    match env.metricsWrite with
    | .ok _ => .ok ⟨env.now, pyBasename fileName, llmModel, locBefore, locAfter, roundTo2 pct⟩
    | .error e => .error e
  else .error .typeError

/-- Result of a `process_file` run: the returned boolean, the optimized-code
writes performed, and the metrics rows appended. -/
structure ProcessResult where
  success : Bool
  savedFiles : List (PyStr × PyStr)
  metricsRows : List MetricsRow
deriving DecidableEq

/-- `main.process_file`: read the code, dispatch to the LLM, save the
optimized code (to `export_path` if given, else in place), compute the
reduction percentage, compute the prompt text for metrics, and record
metrics.  Any exception inside the `try` is caught and `False` returned. -/
def process_file (env : PipelineEnv) (codeFile llmModel : PyStr)
    (args : ArgsObject) (exportPath : Option PyStr) (prompt : Option PyStr) : ProcessResult :=
  match env.metricsInit with
  | .error _ => ⟨false, [], []⟩
  | .ok _ =>
    match env.readFile codeFile with
    | .error _ => ⟨false, [], []⟩
    | .ok originalCode =>
      let originalLoc := count_lines_of_code originalCode
      let optimizedCode := optimize_code env.llm llmModel originalCode (pyOr prompt prompt1)
      let optimizedLoc := count_lines_of_code optimizedCode
      let savePath := exportPath.getD codeFile
      match env.saveResult savePath optimizedCode with
      | .error _ => ⟨false, [], []⟩
      | .ok _ =>
        let saved := [(savePath, optimizedCode)]
        let pct := loc_reduction_percentage originalLoc optimizedLoc
        match promptTextStep args prompt with
        | .error _ => ⟨false, saved, []⟩
        | .ok _ =>
          match record_metrics_call env codeFile llmModel originalLoc optimizedLoc pct with
          | .error _ => ⟨false, saved, []⟩
          | .ok row => ⟨true, saved, [row]⟩

/-- `batch_processor.process_batch_from_csv`: for each CSV row whose file
exists, call `process_file(code_file, llm_model, output_excel,
export_path)` — four positional arguments, so the computed export path is
bound to `process_file`'s `args` parameter and its `export_path` keeps its
`None` default — then sleep 2 seconds.  Missing files are skipped; the
second component accumulates the pacing sleep. -/
def process_batch_from_csv (env : PipelineEnv) (fileExists : PyStr → Bool)
    (rows : List PyStr) (llmModel outputExcel : PyStr) (exportDir : Option PyStr) :
    List (PyStr × ProcessResult) × Nat :=
  match rows with
  | [] => ([], 0)
  | f :: rest =>
    let restOut := process_batch_from_csv env fileExists rest llmModel outputExcel exportDir
    if fileExists f then
      let exportPath := exportDir.map (fun d => pyJoin d (pyBasename f))
      let r := process_file env f llmModel (ArgsObject.exportArg exportPath) none none
      ((f, r) :: restOut.1, 2 + restOut.2)
    else restOut

/-- File-system contents by path. -/
abbrev FS := PyStr → Option PyStr

/-- Write oracles for one `save_code` call: whether the backup write, the
main write and the restore write succeed. -/
structure SaveEnv where
  backupWriteOk : Bool
  mainWriteOk : Bool
  restoreWriteOk : Bool

/-- Update one path of a file system. -/
def fsWrite (fs : FS) (p v : PyStr) : FS :=
  fun q => if q = p then some v else fs q

/-- Python `open(p, 'w'); write(v)`: opening truncates the file, so a
failed write leaves it empty. -/
def pyWrite (ok : Bool) (fs : FS) (p v : PyStr) : Except PyError Unit × FS :=
  if ok then (.ok (), fsWrite fs p v) else (.error .ioError, fsWrite fs p [])

/-- The `.bak` suffix used by `save_code`. -/
def bakSuffix : PyStr := ".bak".toList

/-- The `except` handler of `save_code`: if the backup file exists, try to
write its contents back over `path` (best effort — a failure here is only
logged). -/
def restoreAttempt (restoreOk : Bool) (fs : FS) (path : PyStr) : FS :=
  match fs (path ++ bakSuffix) with
  | some b => (pyWrite restoreOk fs path b).2
  | none => fs

/-- `CodeProcessor.save_code`: copy the original to `path + ".bak"`, write
the new code over `path`; on any failure attempt a restore from the
backup and re-raise. -/
def save_code (env : SaveEnv) (fs : FS) (path code : PyStr) : Except PyError Unit × FS :=
  match fs path with
  | none => (.error .ioError, restoreAttempt env.restoreWriteOk fs path)
  | some original =>
    let b := pyWrite env.backupWriteOk fs (path ++ bakSuffix) original
    match b.1 with
    | .error e => (.error e, restoreAttempt env.restoreWriteOk b.2 path)
    | .ok _ =>
      let w := pyWrite env.mainWriteOk b.2 path code
      match w.1 with
      | .ok _ => (.ok (), w.2)
      | .error e => (.error e, restoreAttempt env.restoreWriteOk w.2 path)

/-- Fuelled worker for the generic fenced blocks the extractor's split
produces, described by occurrence indices: fence-marker pairs are consumed
left to right, and the trailing text after a dangling unmatched opening
marker also counts as a block. -/
def fenceBlocksFromF : Nat → PyStr → List PyStr
  | 0, _ => []
  | fuel + 1, s =>
    match firstOccurIdx genericFence s with
    | none => []
    | some i =>
      let r := s.drop (i + 3)
      match firstOccurIdx genericFence r with
      | none => [r]
      | some j => (r.take j) :: fenceBlocksFromF fuel (r.drop (j + 3))

/-- Generic fenced blocks including a dangling tail, by occurrence index. -/
def fenceBlocksFrom (s : PyStr) : List PyStr :=
  fenceBlocksFromF (s.length + 1) s

/-- Modelled from the spec: generic fenced blocks where "pairs are consumed
left-to-right and a dangling opening marker with no matching close is
treated as producing no block from that split" (spec section 4.4).  Differs
from `fenceBlocksFrom` only in dropping the dangling tail. -/
def closedFenceBlocksF : Nat → PyStr → List PyStr
  | 0, _ => []
  | fuel + 1, s =>
    match firstOccurIdx genericFence s with
    | none => []
    | some i =>
      let r := s.drop (i + 3)
      match firstOccurIdx genericFence r with
      | none => []
      | some j => (r.take j) :: closedFenceBlocksF fuel (r.drop (j + 3))

/-- Modelled from the spec: closed generic fenced blocks only. -/
def closedFenceBlocks (s : PyStr) : List PyStr :=
  closedFenceBlocksF (s.length + 1) s

/-- Modelled from the spec: the extraction contract of spec section 4.4 as
written — the first language-tagged block (which, per the spec's edge-case
note, must have a matching close to count), else the longest closed
generic block, else the raw text unchanged. -/
def specExtractCode (s : PyStr) : PyStr :=
  match firstOccurIdx pythonFence s with
  | some k =>
    let r := s.drop (k + 9)
    (match firstOccurIdx genericFence r with
     | some j => pyStrip (r.take j)
     | none =>
       match closedFenceBlocks s with
       | [] => s
       | b :: bs => pyStrip (pyMaxByLen b bs))
  | none =>
    match closedFenceBlocks s with
    | [] => s
    | b :: bs => pyStrip (pyMaxByLen b bs)

/-- The amended extraction contract, stated by occurrence indices rather
than by the split the code performs: the first tagged block runs from
after the first tagged marker to the next fence marker inside the first
tagged split segment (or that segment's end when the block is
unterminated), and a dangling generic opening marker contributes its tail
as a candidate block. -/
def amendedSpecExtract (s : PyStr) : PyStr :=
  match firstOccurIdx pythonFence s with
  | some k =>
    let r := s.drop (k + 9)
    let segment :=
      match firstOccurIdx pythonFence r with
      | none => r
      | some m => r.take m
    (match firstOccurIdx genericFence segment with
     | none => pyStrip segment
     | some j => pyStrip (segment.take j))
  | none =>
    match fenceBlocksFrom s with
    | [] => s
    | b :: bs => pyStrip (pyMaxByLen b bs)

/-- An LLM environment with no credentials and failing transports. -/
def envNoKeys : LLMEnv :=
  ⟨false, false, false, false, fun _ _ => .error .apiError, fun _ => .error .apiError,
   fun _ => .error .apiError, fun _ => .error .apiError⟩

/-- An LLM environment whose Claude transport fails on attempts 0 and 1 and
succeeds on attempt 2. -/
def retryScenarioEnv : LLMEnv :=
  ⟨true, false, false, false,
   fun _ n => if n = 2 then .ok ("```python\ny = 2\n```".toList) else .error .apiError,
   fun _ => .error .apiError, fun _ => .error .apiError, fun _ => .error .apiError⟩

/-- A pipeline environment in which every pipeline step succeeds. -/
def okPipelineEnv : PipelineEnv :=
  ⟨envNoKeys, fun _ => .ok ("x = 1\n".toList), .ok (), fun _ _ => .ok (), .ok (),
   "2025-01-01 00:00:00".toList⟩

/-- A save environment whose main write fails but whose backup and restore
writes succeed. -/
def saveFailEnv : SaveEnv := ⟨true, false, true⟩

/-- A save environment in which every write succeeds. -/
def saveOkEnv : SaveEnv := ⟨true, true, true⟩

/-- A one-file file system for witnesses. -/
def demoFS : FS :=
  fun p => if p = "a.py".toList then some ("x = 1\n".toList) else none

/-! ### Lemmas about the string machinery -/

theorem stripFront_eq_some {p s r : PyStr} : stripFront p s = some r ↔ s = p ++ r := by
  induction p generalizing s with
  | nil => simp [stripFront, eq_comm]
  | cons a ps ih =>
    cases s with
    | nil => simp [stripFront]
    | cons b cs =>
      simp only [stripFront, List.cons_append, List.cons.injEq]
      by_cases hab : a = b
      · subst hab
        simp [ih]
      · rw [if_neg hab]
        constructor
        · intro h
          cases h
        · rintro ⟨h1, _⟩
          exact absurd h1.symm hab

theorem stripFront_nil_of_ne {pat : PyStr} (h : pat ≠ []) : stripFront pat [] = none := by
  cases pat with
  | nil => exact absurd rfl h
  | cons a ps => rfl

theorem firstOccurIdx_eq_none_iff {pat s : PyStr} :
    firstOccurIdx pat s = none ↔ ∀ j, stripFront pat (s.drop j) = none := by
  induction s with
  | nil =>
    simp only [firstOccurIdx, List.drop_nil]
    cases h : stripFront pat ([] : PyStr) with
    | some r => simp [fun j : Nat => h]
    | none => simp [fun j : Nat => h]
  | cons c cs ih =>
    simp only [firstOccurIdx]
    cases h : stripFront pat (c :: cs) with
    | some r =>
      constructor
      · intro hC
        exact absurd hC (by simp)
      · intro hA
        exact absurd (hA 0) (by simp [h])
    | none =>
      rw [Option.map_eq_none', ih]
      constructor
      · intro hA j
        cases j with
        | zero => simpa using h
        | succ j => simpa using hA j
      · intro hA j
        simpa using hA (j + 1)

theorem firstOccurIdx_some_strip {pat s : PyStr} {i : Nat}
    (h : firstOccurIdx pat s = some i) :
    stripFront pat (s.drop i) = some (s.drop (i + pat.length)) := by
  induction s generalizing i with
  | nil =>
    simp only [firstOccurIdx] at h
    cases hs : stripFront pat ([] : PyStr) with
    | some r =>
      rw [hs] at h
      have hp : (pat : PyStr) = [] := by
        rcases stripFront_eq_some.mp hs with h'
        cases pat with
        | nil => rfl
        | cons a ps => simp at h'
      cases h
      subst hp
      simp [stripFront]
    | none => rw [hs] at h; cases h
  | cons c cs ih =>
    simp only [firstOccurIdx] at h
    cases hs : stripFront pat (c :: cs) with
    | some r =>
      rw [hs] at h
      cases h
      have h' := stripFront_eq_some.mp hs
      simp only [List.drop_zero, Nat.zero_add]
      rw [h']
      exact stripFront_eq_some.mpr (by simp)
    | none =>
      rw [hs] at h
      rcases Option.map_eq_some'.mp h with ⟨i', hi', rfl⟩
      have := ih hi'
      have harith : i' + 1 + pat.length = (i' + pat.length) + 1 := by omega
      rw [harith]
      simpa using this

theorem firstOccurIdx_some_min {pat s : PyStr} {i : Nat}
    (h : firstOccurIdx pat s = some i) :
    ∀ j, j < i → stripFront pat (s.drop j) = none := by
  induction s generalizing i with
  | nil =>
    intro j hj
    simp only [firstOccurIdx] at h
    cases hs : stripFront pat ([] : PyStr) with
    | some r => rw [hs] at h; cases h; omega
    | none => rw [hs] at h; cases h
  | cons c cs ih =>
    intro j hj
    simp only [firstOccurIdx] at h
    cases hs : stripFront pat (c :: cs) with
    | some r => rw [hs] at h; cases h; omega
    | none =>
      rw [hs] at h
      rcases Option.map_eq_some'.mp h with ⟨i', hi', rfl⟩
      cases j with
      | zero => simpa using hs
      | succ j => simpa using ih hi' j (by omega)

theorem firstOccurIdx_some_ne_nil {pat s : PyStr} {i : Nat}
    (hpat : pat ≠ []) (h : firstOccurIdx pat s = some i) : s ≠ [] := by
  intro hs
  subst hs
  simp only [firstOccurIdx] at h
  rw [stripFront_nil_of_ne hpat] at h
  cases h

theorem firstOccurIdx_some_le {pat s : PyStr} {i : Nat}
    (hpat : pat ≠ []) (h : firstOccurIdx pat s = some i) : i + pat.length ≤ s.length := by
  have hstrip := firstOccurIdx_some_strip h
  have hdec := stripFront_eq_some.mp hstrip
  have hlen : (s.drop i).length = pat.length + (s.drop (i + pat.length)).length := by
    rw [hdec]; simp
  have hpl : 1 ≤ pat.length := List.length_pos.mpr hpat
  simp only [List.length_drop] at hlen
  omega

theorem splitHead_eq (c0 : Char) (cr s : PyStr) :
    splitHead c0 cr s =
      match firstOccurIdx (c0 :: cr) s with
      | none => (s, none)
      | some i => (s.take i, some (s.drop (i + (c0 :: cr).length))) := by
  induction s with
  | nil =>
    simp only [splitHead, firstOccurIdx, stripFront_nil_of_ne (List.cons_ne_nil c0 cr)]
  | cons c cs ih =>
    simp only [splitHead, firstOccurIdx]
    cases hs : stripFront (c0 :: cr) (c :: cs) with
    | some rest =>
      have h' := stripFront_eq_some.mp hs
      simp only [List.take_zero, Nat.zero_add]
      rw [h']
      simp
    | none =>
      rw [ih]
      cases ho : firstOccurIdx (c0 :: cr) cs with
      | none => simp
      | some i =>
        have harith : i + 1 + (cr.length + 1) = (i + (cr.length + 1)) + 1 := by omega
        simp [harith]

theorem genericFence_ne_nil : genericFence ≠ [] := by decide

theorem pythonFence_ne_nil : pythonFence ≠ [] := by decide

theorem genericFence_length : genericFence.length = 3 := by decide

theorem pythonFence_length : pythonFence.length = 9 := by decide

theorem splitHead_snd_some_lt {c0 : Char} {cr s rest : PyStr}
    (h : (splitHead c0 cr s).2 = some rest) : rest.length < s.length := by
  rw [splitHead_eq] at h
  cases ho : firstOccurIdx (c0 :: cr) s with
  | none => rw [ho] at h; cases h
  | some i =>
    rw [ho] at h
    simp only at h
    cases h
    have hle := firstOccurIdx_some_le (List.cons_ne_nil c0 cr) ho
    have hne : s ≠ [] := firstOccurIdx_some_ne_nil (List.cons_ne_nil c0 cr) ho
    have hpos : 0 < s.length := List.length_pos.mpr hne
    simp only [List.length_drop, List.length_cons] at hle ⊢
    omega

theorem pySplitF_irrel {sep s : PyStr} :
    ∀ {f1 f2 : Nat}, s.length < f1 → s.length < f2 → pySplitF sep f1 s = pySplitF sep f2 s := by
  suffices H : ∀ (f1 : Nat) (s : PyStr) (f2 : Nat), s.length < f1 → s.length < f2 →
      pySplitF sep f1 s = pySplitF sep f2 s by
    intro f1 f2 h1 h2; exact H f1 s f2 h1 h2
  intro f1
  induction f1 with
  | zero => intro s f2 h1; omega
  | succ f1 ih =>
    intro s f2 h1 h2
    cases f2 with
    | zero => omega
    | succ f2 =>
      cases sep with
      | nil => rfl
      | cons c0 cr =>
        simp only [pySplitF]
        cases hsp : splitHead c0 cr s with
        | mk seg o =>
          cases o with
          | none => rfl
          | some rest =>
            have hlt : rest.length < s.length := splitHead_snd_some_lt (by rw [hsp])
            show seg :: pySplitF (c0 :: cr) f1 rest = seg :: pySplitF (c0 :: cr) f2 rest
            rw [ih rest f2 (by omega) (by omega)]

theorem pySplitF_succ_none {c0 : Char} {cr s : PyStr} {fuel : Nat}
    (h : firstOccurIdx (c0 :: cr) s = none) :
    pySplitF (c0 :: cr) (fuel + 1) s = [s] := by
  simp only [pySplitF, splitHead_eq, h]

theorem pySplitF_succ_some {c0 : Char} {cr s : PyStr} {i fuel : Nat}
    (h : firstOccurIdx (c0 :: cr) s = some i) :
    pySplitF (c0 :: cr) (fuel + 1) s
      = s.take i :: pySplitF (c0 :: cr) fuel (s.drop (i + (c0 :: cr).length)) := by
  simp only [pySplitF, splitHead_eq, h]

theorem pySplit_of_none {sep s : PyStr} (hsep : sep ≠ [])
    (h : firstOccurIdx sep s = none) : pySplit sep s = [s] := by
  cases sep with
  | nil => exact absurd rfl hsep
  | cons c0 cr => exact pySplitF_succ_none h

theorem pySplit_of_some {sep s : PyStr} {i : Nat} (hsep : sep ≠ [])
    (h : firstOccurIdx sep s = some i) :
    pySplit sep s = s.take i :: pySplit sep (s.drop (i + sep.length)) := by
  cases sep with
  | nil => exact absurd rfl hsep
  | cons c0 cr =>
    have hle := firstOccurIdx_some_le (List.cons_ne_nil c0 cr) h
    have hne : s ≠ [] := firstOccurIdx_some_ne_nil (List.cons_ne_nil c0 cr) h
    have hpos : 0 < s.length := List.length_pos.mpr hne
    have hdlen : (s.drop (i + (c0 :: cr).length)).length < s.length := by
      simp only [List.length_drop, List.length_cons] at hle ⊢
      omega
    show pySplitF (c0 :: cr) (s.length + 1) s = _
    rw [pySplitF_succ_some h]
    congr 1
    exact pySplitF_irrel (by omega) (by omega)

theorem pySplit_ne_nil {sep s : PyStr} (hsep : sep ≠ []) : pySplit sep s ≠ [] := by
  cases h : firstOccurIdx sep s with
  | none => rw [pySplit_of_none hsep h]; simp
  | some i => rw [pySplit_of_some hsep h]; simp

theorem pySplit_headD {sep s : PyStr} (hsep : sep ≠ []) :
    (pySplit sep s).headD [] =
      match firstOccurIdx sep s with
      | none => s
      | some i => s.take i := by
  cases h : firstOccurIdx sep s with
  | none => rw [pySplit_of_none hsep h]; rfl
  | some i => rw [pySplit_of_some hsep h]; rfl

theorem one_lt_pySplit_length_iff {sep s : PyStr} (hsep : sep ≠ []) :
    1 < (pySplit sep s).length ↔ (firstOccurIdx sep s).isSome := by
  cases h : firstOccurIdx sep s with
  | none => rw [pySplit_of_none hsep h]; simp
  | some i =>
    rw [pySplit_of_some hsep h]
    have := @pySplit_ne_nil sep (s.drop (i + sep.length)) hsep
    have hpos : 0 < (pySplit sep (s.drop (i + sep.length))).length := List.length_pos.mpr this
    simp only [List.length_cons, Option.isSome_some, iff_true]
    omega

theorem firstOccurIdx_none_drop {pat s : PyStr} {m : Nat} (d : Nat)
    (h : firstOccurIdx pat (s.drop m) = none) :
    firstOccurIdx pat (s.drop (m + d)) = none := by
  rw [firstOccurIdx_eq_none_iff] at h ⊢
  intro j
  have hj := h (d + j)
  have e1 : (s.drop m).drop (d + j) = s.drop (m + (d + j)) := List.drop_drop (d + j) m s
  have e2 : (s.drop (m + d)).drop j = s.drop (m + d + j) := List.drop_drop j (m + d) s
  have e3 : m + d + j = m + (d + j) := by omega
  rw [e2, e3, ← e1]
  exact hj

theorem count_single_none {c : Char} {s : PyStr} (h : firstOccurIdx [c] s = none) :
    s.count c = 0 := by
  induction s with
  | nil => rfl
  | cons b cs ih =>
    simp only [firstOccurIdx] at h
    by_cases hcb : c = b
    · have hs : stripFront [c] (b :: cs) = some cs := by simp [stripFront, hcb]
      rw [hs] at h
      cases h
    · have hs : stripFront [c] (b :: cs) = none := by simp [stripFront, hcb]
      rw [hs, Option.map_eq_none'] at h
      have hcount := ih h
      have hbc : ¬b = c := fun h' => hcb h'.symm
      simp [List.count_cons, hcount, hbc]

theorem count_single_some {c : Char} {s : PyStr} {i : Nat} (h : firstOccurIdx [c] s = some i) :
    s.count c = (s.drop (i + 1)).count c + 1 := by
  induction s generalizing i with
  | nil =>
    simp only [firstOccurIdx] at h
    rw [stripFront_nil_of_ne (by simp)] at h
    cases h
  | cons b cs ih =>
    simp only [firstOccurIdx] at h
    by_cases hcb : c = b
    · have hs : stripFront [c] (b :: cs) = some cs := by simp [stripFront, hcb]
      rw [hs] at h
      cases h
      simp [List.count_cons, hcb]
    · have hs : stripFront [c] (b :: cs) = none := by simp [stripFront, hcb]
      rw [hs] at h
      rcases Option.map_eq_some'.mp h with ⟨i', hi', rfl⟩
      have hcount := ih hi'
      have hbc : ¬b = c := fun h' => hcb h'.symm
      simp [List.count_cons, hbc, List.drop_succ_cons, hcount]

theorem pySplit_single_length (c : Char) :
    ∀ (n : Nat) (s : PyStr), s.length ≤ n → (pySplit [c] s).length = s.count c + 1 := by
  intro n
  induction n with
  | zero =>
    intro s hs
    have hnil : s = [] := List.length_eq_zero.mp (Nat.le_antisymm hs (Nat.zero_le _))
    subst hnil
    rfl
  | succ n ih =>
    intro s hs
    cases h : firstOccurIdx [c] s with
    | none =>
      rw [pySplit_of_none (by simp) h]
      simp [count_single_none h]
    | some i =>
      rw [pySplit_of_some (by simp) h]
      have hne : s ≠ [] := firstOccurIdx_some_ne_nil (by simp) h
      have hpos : 0 < s.length := List.length_pos.mpr hne
      have e : i + ([c] : PyStr).length = i + 1 := rfl
      rw [e]
      have hlen : (s.drop (i + 1)).length ≤ n := by
        simp only [List.length_drop]
        omega
      rw [List.length_cons, ih (s.drop (i + 1)) hlen, count_single_some h]

theorem count_lines_eq (s : PyStr) : count_lines_of_code s = s.count '\n' + 1 :=
  pySplit_single_length '\n' s.length s le_rfl

theorem fenceBlocksFromF_irrel {s : PyStr} :
    ∀ {f1 f2 : Nat}, s.length < f1 → s.length < f2 →
      fenceBlocksFromF f1 s = fenceBlocksFromF f2 s := by
  suffices H : ∀ (f1 : Nat) (s : PyStr) (f2 : Nat), s.length < f1 → s.length < f2 →
      fenceBlocksFromF f1 s = fenceBlocksFromF f2 s by
    intro f1 f2 h1 h2; exact H f1 s f2 h1 h2
  intro f1
  induction f1 with
  | zero => intro s f2 h1; omega
  | succ f1 ih =>
    intro s f2 h1 h2
    cases f2 with
    | zero => omega
    | succ f2 =>
      cases hA : firstOccurIdx genericFence s with
      | none => simp only [fenceBlocksFromF, hA]
      | some i =>
        cases hB : firstOccurIdx genericFence (s.drop (i + 3)) with
        | none => simp only [fenceBlocksFromF, hA, hB]
        | some j =>
          simp only [fenceBlocksFromF, hA, hB]
          have hne : s ≠ [] := firstOccurIdx_some_ne_nil genericFence_ne_nil hA
          have hpos : 0 < s.length := List.length_pos.mpr hne
          have hlt : ((s.drop (i + 3)).drop (j + 3)).length < s.length := by
            simp only [List.length_drop]
            omega
          exact congrArg (List.cons _) (ih ((s.drop (i + 3)).drop (j + 3)) f2 (by omega) (by omega))

theorem fenceBlocksFrom_of_none {s : PyStr} (h : firstOccurIdx genericFence s = none) :
    fenceBlocksFrom s = [] := by
  simp only [fenceBlocksFrom, fenceBlocksFromF, h]

theorem fenceBlocksFrom_of_some_none {s : PyStr} {i : Nat}
    (h1 : firstOccurIdx genericFence s = some i)
    (h2 : firstOccurIdx genericFence (s.drop (i + 3)) = none) :
    fenceBlocksFrom s = [s.drop (i + 3)] := by
  simp only [fenceBlocksFrom, fenceBlocksFromF, h1, h2]

theorem fenceBlocksFrom_of_some_some {s : PyStr} {i j : Nat}
    (h1 : firstOccurIdx genericFence s = some i)
    (h2 : firstOccurIdx genericFence (s.drop (i + 3)) = some j) :
    fenceBlocksFrom s
      = (s.drop (i + 3)).take j :: fenceBlocksFrom ((s.drop (i + 3)).drop (j + 3)) := by
  have hne : s ≠ [] := firstOccurIdx_some_ne_nil genericFence_ne_nil h1
  have hpos : 0 < s.length := List.length_pos.mpr hne
  have hstep : fenceBlocksFromF (s.length + 1) s
      = (s.drop (i + 3)).take j
          :: fenceBlocksFromF s.length ((s.drop (i + 3)).drop (j + 3)) := by
    simp only [fenceBlocksFromF, h1, h2]
  show fenceBlocksFromF (s.length + 1) s = _
  rw [hstep]
  congr 1
  show fenceBlocksFromF s.length ((s.drop (i + 3)).drop (j + 3))
      = fenceBlocksFromF (((s.drop (i + 3)).drop (j + 3)).length + 1)
          ((s.drop (i + 3)).drop (j + 3))
  apply fenceBlocksFromF_irrel
  · simp only [List.length_drop]
    omega
  · omega

theorem oddIdx_pySplit_generic :
    ∀ (n : Nat) (s : PyStr), s.length ≤ n →
      oddIdx (pySplit genericFence s) = fenceBlocksFrom s := by
  intro n
  induction n with
  | zero =>
    intro s hs
    have hnil : s = [] := List.length_eq_zero.mp (Nat.le_antisymm hs (Nat.zero_le _))
    subst hnil
    rfl
  | succ n ih =>
    intro s hs
    cases h1 : firstOccurIdx genericFence s with
    | none =>
      rw [pySplit_of_none genericFence_ne_nil h1, fenceBlocksFrom_of_none h1]
      rfl
    | some i =>
      rw [pySplit_of_some genericFence_ne_nil h1, genericFence_length]
      cases h2 : firstOccurIdx genericFence (s.drop (i + 3)) with
      | none =>
        rw [pySplit_of_none genericFence_ne_nil h2, fenceBlocksFrom_of_some_none h1 h2]
        rfl
      | some j =>
        rw [pySplit_of_some genericFence_ne_nil h2, genericFence_length,
          fenceBlocksFrom_of_some_some h1 h2]
        show ((s.drop (i + 3)).take j)
            :: oddIdx (pySplit genericFence ((s.drop (i + 3)).drop (j + 3))) = _
        congr 1
        apply ih
        have hne : s ≠ [] := firstOccurIdx_some_ne_nil genericFence_ne_nil h1
        have hpos : 0 < s.length := List.length_pos.mpr hne
        simp only [List.length_drop]
        omega

theorem oddIdx_pySplit (s : PyStr) :
    oddIdx (pySplit genericFence s) = fenceBlocksFrom s :=
  oddIdx_pySplit_generic s.length s le_rfl

/-! ### Lemmas about the dispatcher -/

theorem callClaudeGo_all_fail {t : Nat → Except PyError PyStr}
    (h : ∀ n, ∃ e, t n = .error e) :
    ∀ (r a : Nat), ∃ e, (callClaudeGo t a (r + 1)).result = .error e := by
  intro r
  induction r with
  | zero =>
    intro a
    obtain ⟨e, he⟩ := h a
    exact ⟨e, by simp [callClaudeGo, he]⟩
  | succ r ih =>
    intro a
    obtain ⟨e, he⟩ := h a
    obtain ⟨e', he'⟩ := ih (a + 1)
    refine ⟨e', ?_⟩
    simp [callClaudeGo, he]
    exact he'

theorem gemini_ne_claude : geminiName ≠ claudeName := by decide

theorem openai_ne_claude : openaiName ≠ claudeName := by decide

theorem openai_ne_gemini : openaiName ≠ geminiName := by decide

theorem deepseek_ne_claude : deepseekName ≠ claudeName := by decide

theorem deepseek_ne_gemini : deepseekName ≠ geminiName := by decide

theorem deepseek_ne_openai : deepseekName ≠ openaiName := by decide

/-! ### Claim theorems -/

/-- C7: the LOC reduction percentage equals 100 × (b − a) / b when b > 0
(100 lines before, 60 after gives exactly 40), equals 0 when b = 0, and for
all non-negative line counts the result is at most 100. -/
theorem loc_reduction_percentage_props :
    loc_reduction_percentage 100 60 = 40
    ∧ (∀ a, loc_reduction_percentage 0 a = 0)
    ∧ ∀ b a, loc_reduction_percentage b a ≤ 100 := by
  refine ⟨by norm_num [loc_reduction_percentage],
    fun a => by simp [loc_reduction_percentage], fun b a => ?_⟩
  simp only [loc_reduction_percentage]
  split_ifs with hb
  · have hb' : (0 : ℚ) < b := by exact_mod_cast hb
    rw [div_mul_eq_mul_div, div_le_iff hb']
    have ha : (0 : ℚ) ≤ a := Nat.cast_nonneg a
    linarith
  · norm_num

/-- C10: `count_lines_of_code` returns the number of newline characters
plus one, hence is at least 1 for every string (including the empty one);
consequently, when `loc_before` is a line count of some code text, the
reduction percentage always takes the division branch — the
division-by-zero guard is unreachable in the pipeline. -/
theorem count_lines_of_code_props :
    (∀ s : PyStr, count_lines_of_code s = s.count '\n' + 1)
    ∧ (∀ s : PyStr, 1 ≤ count_lines_of_code s)
    ∧ ∀ (code : PyStr) (a : Nat),
        loc_reduction_percentage (count_lines_of_code code) a
          = (((count_lines_of_code code : ℚ) - (a : ℚ)) / (count_lines_of_code code : ℚ)) * 100 := by
  refine ⟨count_lines_eq, fun s => by rw [count_lines_eq]; omega, fun code a => ?_⟩
  have hpos : 0 < count_lines_of_code code := by rw [count_lines_eq]; omega
  simp [loc_reduction_percentage, hpos]

/-- C5 counterexample: at the unsupported model name "mistral-7b" the
dispatcher returns the original code as a normal result — the caller
observes no rejection (the internal `ValueError` is swallowed by the
dispatcher's own handler), contradicting the claim that the caller
observes a ConfigurationError-kind failure.  No network call is made. -/
theorem unknown_model_rejection_counterexample :
    optimizeCodeObservable envNoKeys ("mistral-7b".toList) ("x = 1".toList) ("p".toList)
        = DispatchObservable.normal ("x = 1".toList)
    ∧ isRejection (optimizeCodeObservable envNoKeys ("mistral-7b".toList)
        ("x = 1".toList) ("p".toList)) = false
    ∧ (optimizeCodeTry envNoKeys ("mistral-7b".toList) ("x = 1".toList) ("p".toList)).calls
        = 0 := by
  decide

/-- C5 (amended): a provider identifier outside the supported set raises a
`ValueError` inside the dispatch before any network call is attempted, but
the dispatcher's blanket exception handler catches it, so the caller
observes the original code returned as a normal result, not a rejection. -/
theorem unknown_model_degrades_to_original (env : LLMEnv) (model code prompt : PyStr)
    (hm : model ∉ supportedModels) :
    (optimizeCodeTry env model code prompt).result
        = .error (.valueError ("Unsupported model: ".toList ++ model))
    ∧ (optimizeCodeTry env model code prompt).calls = 0
    ∧ optimizeCodeObservable env model code prompt = .normal code := by
  simp only [supportedModels, List.mem_cons, List.not_mem_nil, or_false] at hm
  push_neg at hm
  obtain ⟨h1, h2, h3, h4⟩ := hm
  refine ⟨?_, ?_, ?_⟩ <;>
    simp [optimizeCodeTry, optimizeCodeObservable, h1, h2, h3, h4]

/-- Witness for C5's amended theorem at the concrete model "gpt-5". -/
theorem unknown_model_degrades_witness :
    (optimizeCodeTry envNoKeys ("gpt-5".toList) ("x".toList) ("p".toList)).result
        = .error (.valueError ("Unsupported model: ".toList ++ "gpt-5".toList))
    ∧ (optimizeCodeTry envNoKeys ("gpt-5".toList) ("x".toList) ("p".toList)).calls = 0
    ∧ optimizeCodeObservable envNoKeys ("gpt-5".toList) ("x".toList) ("p".toList)
        = .normal ("x".toList) :=
  unknown_model_degrades_to_original envNoKeys ("gpt-5".toList) ("x".toList) ("p".toList)
    (by decide)

/-- C4: for every supported model name, whenever every transport call of
every provider raises (with arbitrary exceptions, including the case of
exhausted Claude retries), `optimize_code` returns the original source
code unchanged and never raises past its boundary. -/
theorem optimize_code_transport_fallback (env : LLMEnv) (model code prompt : PyStr)
    (hm : model ∈ supportedModels) (hfail : transportsAllFail env) :
    optimize_code env model code prompt = code
    ∧ optimizeCodeObservable env model code prompt = .normal code := by
  obtain ⟨hc, hg, ho, hd⟩ := hfail
  have herr : ∃ e, (optimizeCodeTry env model code prompt).result = .error e := by
    simp only [supportedModels, List.mem_cons, List.not_mem_nil, or_false] at hm
    rcases hm with rfl | rfl | rfl | rfl
    · by_cases hk : env.hasClaudeKey = true
      · have hall : ∀ n, ∃ e, env.claudeTransport (buildFullPrompt prompt code) n = .error e :=
          fun n => hc _ n
        obtain ⟨e, he⟩ := callClaudeGo_all_fail hall 2 0
        refine ⟨e, ?_⟩
        simp only [optimizeCodeTry, if_pos rfl, call_claude, hk, if_true]
        exact he
      · exact ⟨.valueError ("Claude API key not found in environment variables".toList),
          by simp [optimizeCodeTry, call_claude, hk]⟩
    · obtain ⟨e, he⟩ := hg (buildFullPrompt prompt code)
      by_cases hk : env.hasGoogleKey = true
      · exact ⟨e, by simp [optimizeCodeTry, gemini_ne_claude, call_gemini, callSimple, hk, he]⟩
      · exact ⟨.valueError ("Google API key not found in environment variables".toList),
          by simp [optimizeCodeTry, gemini_ne_claude, call_gemini, callSimple, hk]⟩
    · obtain ⟨e, he⟩ := ho (buildFullPrompt prompt code)
      by_cases hk : env.hasOpenaiKey = true
      · exact ⟨e, by simp [optimizeCodeTry, openai_ne_claude, openai_ne_gemini, call_openai,
          callSimple, hk, he]⟩
      · exact ⟨.valueError ("OpenAI API key not found in environment variables".toList),
          by simp [optimizeCodeTry, openai_ne_claude, openai_ne_gemini, call_openai,
            callSimple, hk]⟩
    · obtain ⟨e, he⟩ := hd (buildFullPrompt prompt code)
      by_cases hk : env.hasDeepseekKey = true
      · exact ⟨e, by simp [optimizeCodeTry, deepseek_ne_claude, deepseek_ne_gemini,
          deepseek_ne_openai, call_deepseek, callSimple, hk, he]⟩
      · exact ⟨.valueError ("DeepSeek API key not found in environment variables".toList),
          by simp [optimizeCodeTry, deepseek_ne_claude, deepseek_ne_gemini,
            deepseek_ne_openai, call_deepseek, callSimple, hk]⟩
  obtain ⟨e, he⟩ := herr
  exact ⟨by simp [optimize_code, he], by simp [optimizeCodeObservable, he]⟩

/-- Witness for C4 at the concrete model "gpt-4o" with failing transports. -/
theorem optimize_code_transport_fallback_witness :
    optimize_code envNoKeys openaiName ("x = 1".toList) ("p".toList) = "x = 1".toList
    ∧ optimizeCodeObservable envNoKeys openaiName ("x = 1".toList) ("p".toList)
        = .normal ("x = 1".toList) :=
  optimize_code_transport_fallback envNoKeys openaiName ("x = 1".toList) ("p".toList)
    (by decide)
    ⟨fun _ _ => ⟨.apiError, rfl⟩, fun _ => ⟨.apiError, rfl⟩, fun _ => ⟨.apiError, rfl⟩,
     fun _ => ⟨.apiError, rfl⟩⟩

/-- C2: the Claude path uses a fixed maximum of 3 attempts and a base delay
of 2; for any transport that fails on attempts 0 and 1, if attempt 2
succeeds the call returns the extracted third-attempt result after a total
simulated sleep of 2 + 4 = 6 with exactly 3 transport calls, and if
attempt 2 also fails the failure propagates out of `call_claude` after the
same total sleep, and `optimize_code` then falls back to returning the
original code. -/
theorem claude_retry_backoff (env : LLMEnv) (fp code prompt : PyStr) (e0 e1 : PyError)
    (hk : env.hasClaudeKey = true)
    (h0 : ∀ p, env.claudeTransport p 0 = .error e0)
    (h1 : ∀ p, env.claudeTransport p 1 = .error e1) :
    maxRetries = 3
    ∧ retryDelay = 2
    ∧ (∀ r, (∀ p, env.claudeTransport p 2 = .ok r) →
        call_claude env fp = ⟨.ok (extract_code_from_response r), 6, 3⟩)
    ∧ ∀ e2, (∀ p, env.claudeTransport p 2 = .error e2) →
        call_claude env fp = ⟨.error e2, 6, 3⟩
        ∧ optimize_code env claudeName code prompt = code := by
  refine ⟨rfl, rfl, ?_, ?_⟩
  · intro r hr
    simp [call_claude, hk, maxRetries, callClaudeGo, h0 fp, h1 fp, hr fp, retryDelay]
  · intro e2 h2
    constructor
    · simp [call_claude, hk, maxRetries, callClaudeGo, h0 fp, h1 fp, h2 fp, retryDelay]
    · have hres : (optimizeCodeTry env claudeName code prompt).result = .error e2 := by
        simp [optimizeCodeTry, call_claude, hk, maxRetries, callClaudeGo,
          h0 (buildFullPrompt prompt code), h1 (buildFullPrompt prompt code),
          h2 (buildFullPrompt prompt code), retryDelay]
      simp [optimize_code, hres]

/-- Witness for C2: a concrete transport failing twice then succeeding. -/
theorem claude_retry_backoff_witness :
    call_claude retryScenarioEnv ("p".toList)
      = ⟨.ok (extract_code_from_response ("```python\ny = 2\n```".toList)), 6, 3⟩
    ∧ extract_code_from_response ("```python\ny = 2\n```".toList) = "y = 2".toList := by
  constructor
  · exact (claude_retry_backoff retryScenarioEnv ("p".toList) [] [] .apiError .apiError rfl
      (fun _ => rfl) (fun _ => rfl)).2.2.1 ("```python\ny = 2\n```".toList) (fun _ => rfl)
  · decide

/-- C3 counterexample: the input consisting of one dangling generic opening
marker followed by "abc" contains no closed fenced block of either kind,
so the claim's case analysis (formalised by `specExtractCode`) prescribes
returning the raw text unchanged; the code instead treats the dangling
tail as a block and returns "abc". -/
theorem extract_code_dangling_block_counterexample :
    extract_code_from_response ("```abc".toList) = "abc".toList
    ∧ specExtractCode ("```abc".toList) = "```abc".toList
    ∧ extract_code_from_response ("```abc".toList) ≠ specExtractCode ("```abc".toList) := by
  decide

/-- C3 (amended): `extract_code_from_response` follows the claim's case
analysis once a dangling opening marker is allowed to contribute a block:
if the text contains the tagged marker, it returns the text after the
first tagged marker up to the next generic fence within the first tagged
split segment (or that segment's end), trimmed; else if it contains a
generic fence marker, it returns the longest candidate block — pairs
consumed left to right with the dangling tail included — trimmed, ties
broken by first occurrence; else it returns the raw text unchanged. -/
theorem extract_code_matches_amended_spec (s : PyStr) :
    extract_code_from_response s = amendedSpecExtract s := by
  cases hk : firstOccurIdx pythonFence s with
  | none =>
    have hps : pySplit pythonFence s = [s] := pySplit_of_none pythonFence_ne_nil hk
    cases hg : firstOccurIdx genericFence s with
    | none =>
      have hgs : pySplit genericFence s = [s] := pySplit_of_none genericFence_ne_nil hg
      simp [extract_code_from_response, amendedSpecExtract, hk, hps, hgs,
        fenceBlocksFrom_of_none hg]
    | some i =>
      have hgs := pySplit_of_some genericFence_ne_nil hg
      rw [genericFence_length] at hgs
      have hne := @pySplit_ne_nil genericFence (s.drop (i + 3)) genericFence_ne_nil
      have hpos : 0 < (pySplit genericFence (s.drop (i + 3))).length := List.length_pos.mpr hne
      have hlen : 1 < (pySplit genericFence s).length := by
        rw [hgs, List.length_cons]
        omega
      have hodd := oddIdx_pySplit s
      simp only [extract_code_from_response, amendedSpecExtract, hk, hps,
        List.length_singleton, lt_irrefl, if_false, if_pos hlen, hodd]
  | some k =>
    have hps := pySplit_of_some pythonFence_ne_nil hk
    rw [pythonFence_length] at hps
    have hne := @pySplit_ne_nil pythonFence (s.drop (k + 9)) pythonFence_ne_nil
    have hpos : 0 < (pySplit pythonFence (s.drop (k + 9))).length := List.length_pos.mpr hne
    have hlen : 1 < (pySplit pythonFence s).length := by
      rw [hps, List.length_cons]
      omega
    cases hm : firstOccurIdx pythonFence (s.drop (k + 9)) with
    | none =>
      have hps2 : pySplit pythonFence (s.drop (k + 9)) = [s.drop (k + 9)] :=
        pySplit_of_none pythonFence_ne_nil hm
      cases hj : firstOccurIdx genericFence (s.drop (k + 9)) with
      | none =>
        have hgs2 : pySplit genericFence (s.drop (k + 9)) = [s.drop (k + 9)] :=
          pySplit_of_none genericFence_ne_nil hj
        simp [extract_code_from_response, amendedSpecExtract, hk, hm, hj, hps, hps2, hgs2,
          if_pos hlen]
      | some j =>
        have hgs2 := pySplit_of_some genericFence_ne_nil hj
        rw [genericFence_length] at hgs2
        simp [extract_code_from_response, amendedSpecExtract, hk, hm, hj, hps, hps2, hgs2,
          if_pos hlen]
    | some m =>
      have hps2 := pySplit_of_some pythonFence_ne_nil hm
      rw [pythonFence_length] at hps2
      cases hj : firstOccurIdx genericFence ((s.drop (k + 9)).take m) with
      | none =>
        have hgs2 : pySplit genericFence ((s.drop (k + 9)).take m)
            = [(s.drop (k + 9)).take m] := pySplit_of_none genericFence_ne_nil hj
        simp [extract_code_from_response, amendedSpecExtract, hk, hm, hj, hps, hps2, hgs2,
          if_pos hlen]
      | some j =>
        have hgs2 := pySplit_of_some genericFence_ne_nil hj
        rw [genericFence_length] at hgs2
        simp [extract_code_from_response, amendedSpecExtract, hk, hm, hj, hps, hps2, hgs2,
          if_pos hlen]

/-- C6 counterexample: for an input with exactly one opening fence marker
and no closing marker, extraction returns the trimmed text after the
marker — neither the full input text nor an empty result, contradicting
the claim (and the spec's statement that a dangling opening marker
produces no block). -/
theorem extract_code_unterminated_counterexample :
    firstOccurIdx genericFence ("```\nx = 1".toList) = some 0
    ∧ firstOccurIdx genericFence (("```\nx = 1".toList).drop 3) = none
    ∧ extract_code_from_response ("```\nx = 1".toList) = "x = 1".toList
    ∧ extract_code_from_response ("```\nx = 1".toList) ≠ "```\nx = 1".toList
    ∧ extract_code_from_response ("```\nx = 1".toList) ≠ ([] : PyStr) := by
  decide

/-- C6 (amended): for every input with exactly one generic opening fence
marker (at index `i`) and no closing marker after it, extraction is total
(no exception is modelled anywhere in it) and returns the trimmed text
following the marker — following the tagged marker when the occurrence is
tagged — rather than the full text, an empty result, or a no-block
fallback. -/
theorem extract_code_unterminated_behavior (s : PyStr) (i : Nat)
    (h1 : firstOccurIdx genericFence s = some i)
    (h2 : firstOccurIdx genericFence (s.drop (i + 3)) = none) :
    extract_code_from_response s
      = match firstOccurIdx pythonFence s with
        | some k => pyStrip (s.drop (k + 9))
        | none => pyStrip (s.drop (i + 3)) := by
  cases hk : firstOccurIdx pythonFence s with
  | none =>
    have hps := pySplit_of_none pythonFence_ne_nil hk
    have hg1 := pySplit_of_some genericFence_ne_nil h1
    rw [genericFence_length] at hg1
    have hg2 := pySplit_of_none genericFence_ne_nil h2
    simp [extract_code_from_response, hk, hps, hg1, hg2, oddIdx, pyMaxByLen]
  | some k =>
    have hik : i ≤ k := by
      by_contra hlt
      push_neg at hlt
      have hmin := firstOccurIdx_some_min h1 k hlt
      have hstr := firstOccurIdx_some_strip hk
      have hgen : stripFront genericFence (s.drop k)
          = some ("python".toList ++ s.drop (k + pythonFence.length)) := by
        have hd := stripFront_eq_some.mp hstr
        apply stripFront_eq_some.mpr
        rw [hd]
        simp [pythonFence, List.append_assoc]
      rw [hmin] at hgen
      cases hgen
    have hnog : firstOccurIdx genericFence (s.drop (k + 9)) = none := by
      have e : k + 9 = (i + 3) + (k + 6 - i) := by omega
      rw [e]
      exact firstOccurIdx_none_drop (k + 6 - i) h2
    have hnop : firstOccurIdx pythonFence (s.drop (k + 9)) = none := by
      rw [firstOccurIdx_eq_none_iff] at hnog ⊢
      intro j
      cases hx : stripFront pythonFence ((s.drop (k + 9)).drop j) with
      | none => rfl
      | some r =>
        have hd := stripFront_eq_some.mp hx
        have hgen : stripFront genericFence ((s.drop (k + 9)).drop j)
            = some ("python".toList ++ r) := by
          apply stripFront_eq_some.mpr
          rw [hd]
          simp [pythonFence, List.append_assoc]
        rw [hnog j] at hgen
        cases hgen
    have hps := pySplit_of_some pythonFence_ne_nil hk
    rw [pythonFence_length] at hps
    have hps2 : pySplit pythonFence (s.drop (k + 9)) = [s.drop (k + 9)] :=
      pySplit_of_none pythonFence_ne_nil hnop
    have hgs2 : pySplit genericFence (s.drop (k + 9)) = [s.drop (k + 9)] :=
      pySplit_of_none genericFence_ne_nil hnog
    simp [extract_code_from_response, hk, hps, hps2, hgs2]

/-- Witness for C6's amended theorem at a concrete dangling-fence input. -/
theorem extract_code_unterminated_witness :
    extract_code_from_response ("hello ``` x = 1".toList)
      = pyStrip (("hello ``` x = 1".toList).drop 9) := by
  have h := extract_code_unterminated_behavior ("hello ``` x = 1".toList) 6
    (by decide) (by decide)
  have hnone : firstOccurIdx pythonFence ("hello ``` x = 1".toList) = none := by decide
  rw [hnone] at h
  exact h

/-- C1: even when constructing the recorder, reading the input, dispatching
to the LLM (which cannot raise), and persisting the optimized code all
succeed, `process_file` appends no metrics row and returns `False`,
because the call site passes the keyword argument `prompt_text`, which
`record_metrics`'s signature does not accept — Python raises `TypeError`
before the row is written, and the blanket handler turns it into a
`False` return.  The claim that one row is appended and `True` returned
is therefore violated on every run. -/
theorem process_file_metrics_recording_fails
    (env : PipelineEnv) (codeFile llmModel : PyStr)
    (cp pc : Option PyStr) (exportPath prompt : Option PyStr) (c : PyStr)
    (hinit : env.metricsInit = .ok ())
    (hread : env.readFile codeFile = .ok c)
    (hsave : ∀ p s, env.saveResult p s = .ok ())
    (hwrite : env.metricsWrite = .ok ())
    (hprompt : ∃ pt, promptTextStep (.namespaceArgs cp pc) prompt = .ok pt) :
    (process_file env codeFile llmModel (.namespaceArgs cp pc) exportPath prompt).success = false
    ∧ (process_file env codeFile llmModel (.namespaceArgs cp pc) exportPath prompt).metricsRows
        = []
    ∧ (process_file env codeFile llmModel (.namespaceArgs cp pc) exportPath prompt).savedFiles
        = [(exportPath.getD codeFile,
            optimize_code env.llm llmModel c (pyOr prompt prompt1))] := by
  obtain ⟨pt, hpt⟩ := hprompt
  have hkw : pyKwargsAccepted recordMetricsParamNames recordCallKwargNames = false := by decide
  simp [process_file, hinit, hread, hsave, hpt, record_metrics_call, hkw]

/-- Witness for C1: a concrete all-steps-succeed environment. -/
theorem process_file_metrics_recording_fails_witness :
    (process_file okPipelineEnv ("a.py".toList) openaiName
        (.namespaceArgs none none) none none).success = false
    ∧ (process_file okPipelineEnv ("a.py".toList) openaiName
        (.namespaceArgs none none) none none).metricsRows = []
    ∧ (process_file okPipelineEnv ("a.py".toList) openaiName
        (.namespaceArgs none none) none none).savedFiles
        = [(("a.py".toList),
            optimize_code okPipelineEnv.llm openaiName ("x = 1\n".toList)
              (pyOr none prompt1))] :=
  process_file_metrics_recording_fails okPipelineEnv ("a.py".toList) openaiName none none
    none none ("x = 1\n".toList) rfl rfl (fun _ _ => rfl) rfl ⟨some prompt1, rfl⟩

/-- C8: in a CSV batch run with an export directory, an item whose file
exists is processed and the batch then continues with the remaining rows
after the fixed 2-second pacing sleep — but, because the batch driver
passes the computed export path as `process_file`'s fourth positional
argument (`args`), the optimized code is written over the input file in
place instead of to the export path, and the item then fails (the
path-typed `args` has no `custom_prompt` attribute), recording no
metrics.  The claim that the optimized code goes to
`export_dir/basename` is therefore violated. -/
theorem batch_export_dir_ignored
    (env : PipelineEnv) (fileExists : PyStr → Bool)
    (f : PyStr) (rest : List PyStr) (llmModel outputExcel d c : PyStr)
    (hex : fileExists f = true)
    (hinit : env.metricsInit = .ok ())
    (hread : env.readFile f = .ok c)
    (hsave : ∀ p s, env.saveResult p s = .ok ()) :
    process_batch_from_csv env fileExists (f :: rest) llmModel outputExcel (some d)
      = ((f, ⟨false, [(f, optimize_code env.llm llmModel c prompt1)], []⟩)
           :: (process_batch_from_csv env fileExists rest llmModel outputExcel (some d)).1,
         2 + (process_batch_from_csv env fileExists rest llmModel outputExcel (some d)).2) := by
  have hpf : process_file env f llmModel
      (ArgsObject.exportArg (some (pyJoin d (pyBasename f)))) none none
      = ⟨false, [(f, optimize_code env.llm llmModel c prompt1)], []⟩ := by
    simp [process_file, hinit, hread, hsave, promptTextStep, getattrCustomPrompt, pyOr]
  simp [process_batch_from_csv, hex, hpf]

/-- Witness for C8: one existing file, an export directory, an
all-steps-succeed environment. -/
theorem batch_export_dir_ignored_witness :
    process_batch_from_csv okPipelineEnv (fun _ => true) ["a.py".toList] openaiName
        ("results.xlsx".toList) (some ("exports".toList))
      = ([(("a.py".toList),
          ⟨false,
           [(("a.py".toList),
             optimize_code okPipelineEnv.llm openaiName ("x = 1\n".toList) prompt1)], []⟩)],
         2) := by
  have h := batch_export_dir_ignored okPipelineEnv (fun _ => true) ("a.py".toList) []
    openaiName ("results.xlsx".toList) ("exports".toList) ("x = 1\n".toList)
    rfl rfl rfl (fun _ _ => rfl)
  simpa using h

/-- C9: when the target file exists and the backup write succeeds,
`save_code` copies the original contents to `path + ".bak"` before
overwriting: on the success path the final file system holds the new code
at `path` and the original at the backup; if the main write fails
(modelled as a truncating open followed by a failed write), `save_code`
attempts a restore from the backup — recovering the original contents at
`path` when the restore write succeeds — and re-raises the error to the
caller in every case. -/
theorem save_code_backup_and_restore
    (env : SaveEnv) (fs : FS) (path code orig : PyStr)
    (horig : fs path = some orig) (hb : env.backupWriteOk = true) :
    (env.mainWriteOk = true →
       save_code env fs path code
         = (.ok (), fsWrite (fsWrite fs (path ++ bakSuffix) orig) path code))
    ∧ (env.mainWriteOk = false → env.restoreWriteOk = true →
       (save_code env fs path code).1 = .error .ioError
       ∧ (save_code env fs path code).2 path = some orig
       ∧ (save_code env fs path code).2 (path ++ bakSuffix) = some orig)
    ∧ (env.mainWriteOk = false → (save_code env fs path code).1 = .error .ioError) := by
  have hne1 : ¬(path ++ bakSuffix = path) := by
    intro h
    have hl := congrArg List.length h
    simp [bakSuffix] at hl
  refine ⟨?_, ?_, ?_⟩
  · intro hmw
    simp [save_code, horig, pyWrite, hb, hmw]
  · intro hmw hrw
    refine ⟨?_, ?_, ?_⟩ <;>
      simp [save_code, horig, pyWrite, hb, hmw, hrw, restoreAttempt, fsWrite, hne1]
  · intro hmw
    by_cases hrw : env.restoreWriteOk = true <;>
      simp [save_code, horig, pyWrite, hb, hmw, hrw, restoreAttempt, fsWrite, hne1]

/-- Witness for C9: a one-file file system whose main write fails. -/
theorem save_code_backup_and_restore_witness :
    (save_code saveFailEnv demoFS ("a.py".toList) ("y".toList)).1 = .error .ioError
    ∧ (save_code saveFailEnv demoFS ("a.py".toList) ("y".toList)).2 ("a.py".toList)
        = some ("x = 1\n".toList)
    ∧ (save_code saveFailEnv demoFS ("a.py".toList) ("y".toList)).2
        ("a.py".toList ++ bakSuffix) = some ("x = 1\n".toList) :=
  (save_code_backup_and_restore saveFailEnv demoFS ("a.py".toList) ("y".toList)
    ("x = 1\n".toList) (by decide) rfl).2.1 rfl rfl

end Debloat
